import Mathlib

/-!
Verification of the snake game engine in `src/snake.py` (tnet-arcade).

Python integers are modelled as `Int`; Python `%` on a positive modulus
agrees with `Int.emod` (Lean's `%`), and Python `//` on non-negative
operands agrees with `Int.fdiv`.  The float-valued tick constants are
modelled as exact rationals.  Randomness (`random.randint`,
`random.choice`) is modelled by passing the drawn values explicitly:
`draws` is the stream of candidate points produced by the
`random.randint` pairs (each one lies in the interior rectangle by
construction of the call), and `choice` is the index drawn by
`random.choice`.  The curses display calls have no effect on the game
state and are omitted.
-/

namespace SnakeGame

/-- Model of `Point` from snake.py: frozen dataclass with integer fields `y`, `x`. -/
structure Point where
  y : Int
  x : Int
deriving DecidableEq, Repr, Inhabited

/-- Model of `add` from snake.py: component-wise sum. -/
def add (a b : Point) : Point :=
  ⟨a.y + b.y, a.x + b.x⟩

/-- Model of `wrap_point` from snake.py: wrap point within the playable area
`(1..h-2, 1..w-2)` by `1 + ((p.y - 1) % (h - 2))` and likewise for `x`. -/
def wrap_point (p : Point) (h w : Int) : Point :=
  ⟨1 + ((p.y - 1) % (h - 2)), 1 + ((p.x - 1) % (w - 2))⟩

/-- Model of `clamp` from snake.py: `max(lo, min(hi, n))`. -/
def clamp (n lo hi : Int) : Int :=
  max lo (min hi n)

/-- The four direction vectors of `DIRS` in snake.py
(up, down, left, right as mapped from the arrow keys). -/
def DIRS : List Point :=
  [⟨-1, 0⟩, ⟨1, 0⟩, ⟨0, -1⟩, ⟨0, 1⟩]

/-- Constant `TICK_START = 0.10` (float constant modelled as an exact rational). -/
def TICK_START : ℚ := 10 / 100

/-- Constant `TICK_MIN = 0.045` (float constant modelled as an exact rational). -/
def TICK_MIN : ℚ := 45 / 1000

/-- Constant `TICK_DECAY_PER_POINT = 0.0025` (float constant modelled as an exact
rational). -/
def TICK_DECAY_PER_POINT : ℚ := 25 / 10000

/-- Model of `calc_tick` from snake.py:
`max(TICK_MIN, TICK_START - (score * TICK_DECAY_PER_POINT))`. -/
def calc_tick (score : Int) : ℚ :=
  max TICK_MIN (TICK_START - (score * TICK_DECAY_PER_POINT))

/-- Constant `START_LENGTH = 3` from snake.py. -/
def START_LENGTH : Nat := 3

/-- Outcome of one attempt to read the high-score file in
`load_highscore`: the read or JSON parse (or the `int(...)` conversion)
raises, the parsed object lacks the `high_score` key (so `data.get`
returns the default `0`), or the key holds an integer `hs`. -/
inductive ReadResult where
  | failure
  | missingField
  | value (hs : Int)
deriving DecidableEq, Repr

/-- Model of `load_highscore` from snake.py: on any exception return `0`;
otherwise `hs = int(data.get("high_score", 0))` and the result is
`max(0, hs)`. -/
def load_highscore : ReadResult → Int
  | ReadResult.failure => 0
  | ReadResult.missingField => max 0 0
  | ReadResult.value hs => max 0 hs

/-- The list of interior cells scanned by the fallback paths of
`place_food` (`for y in range(1, h - 1): for x in range(1, w - 1)`),
in scan order. -/
def interiorCells (h w : Int) : List Point :=
  (List.range (h - 2).toNat).flatMap fun (i : Nat) =>
    (List.range (w - 2).toNat).map fun (j : Nat) =>
      Point.mk (1 + (i : Int)) (1 + (j : Int))

/-- Model of `place_food` from snake.py.  `snake` is the occupied-cell set;
`draws` models the stream of points produced by the
`random.randint(1, h - 2), random.randint(1, w - 2)` pairs of the
200-try loop (each such point lies in the interior rectangle by the
bounds of the two calls); `choice` models the index drawn by
`random.choice` on the dense branch (Python raises on an empty
candidate list where the model returns the `getD` default, a case the
callers never reach). -/
def place_food (h w : Int) (snake : Finset Point) (choice : Nat)
    (draws : List Point) : Point :=
  let playable := (h - 2) * (w - 2)
  let empty := playable - snake.card
  if empty ≤ 0 then ⟨1, 1⟩
  else if empty < max 20 (Int.fdiv playable 8) then
    let empties := (interiorCells h w).filter fun p => decide (p ∉ snake)
    empties.getD (choice % empties.length) ⟨1, 1⟩
  else
    match (draws.take 200).find? (fun p => decide (p ∉ snake)) with
    | some p => p
    | none =>
      match (interiorCells h w).find? (fun p => decide (p ∉ snake)) with
      | some p => p
      | none => ⟨1, 1⟩

/-- The mutable game variables of `run` in snake.py: the body deque
(head first), its set-valued index `snake_set`, the food cell, the
current direction, the score, the pause flag, the wrap flag and the
in-memory high score. -/
structure GameState where
  body : List Point
  snakeSet : Finset Point
  food : Point
  direction : Point
  score : Int
  paused : Bool
  wrapWalls : Bool
  highScore : Int
deriving DecidableEq

/-- Result of one movement step of `run`'s while loop: either the loop
continues with the updated state, or it exits via `break`
(a game-over transition) with the state as it was at the `break`. -/
inductive TickResult where
  | cont (s : GameState)
  | gameOver (s : GameState)
deriving DecidableEq

/-- Lines 199-228 of `run` after the new head has been computed
(wall handling already done): the self-collision check
`new_head in snake_set and new_head != tail`, then
`body.appendleft` / `snake_set.add`, then either the eat branch
(score, high score, new food) or `body.pop()` / `snake_set.remove`. -/
def stepFrom (h w : Int) (choice : Nat) (draws : List Point)
    (s : GameState) (new_head : Point) : TickResult :=
  let tail := s.body.getLastD default
  if new_head ∈ s.snakeSet ∧ new_head ≠ tail then TickResult.gameOver s
  else
    let body1 := new_head :: s.body
    let set1 := insert new_head s.snakeSet
    if new_head = s.food then
      let score1 := s.score + 1
      let highScore1 := if score1 > s.highScore then score1 else s.highScore
      let food1 := place_food h w set1 choice draws
      TickResult.cont { s with body := body1, snakeSet := set1,
                               food := food1, score := score1,
                               highScore := highScore1 }
    else
      let removed := body1.getLastD default
      TickResult.cont { s with body := body1.dropLast,
                               snakeSet := set1.erase removed }

/-- One movement step of `run`'s while loop (lines 199-228), for a
non-paused state: compute `new_head = add(body[0], direction)`, apply
wrapping or the fatal wall check depending on `wrap_walls`, then
continue with `stepFrom`. -/
def step (h w : Int) (choice : Nat) (draws : List Point)
    (s : GameState) : TickResult :=
  let head := s.body.headI
  let nh := add head s.direction
  if s.wrapWalls then
    stepFrom h w choice draws s (wrap_point nh h w)
  else if nh.y ≤ 0 ∨ nh.y ≥ h - 1 ∨ nh.x ≤ 0 ∨ nh.x ≥ w - 1 then
    TickResult.gameOver s
  else
    stepFrom h w choice draws s nh

/-- The state carried out of a `TickResult`. -/
def TickResult.state : TickResult → GameState
  | TickResult.cont s => s
  | TickResult.gameOver s => s

/-- Lines 253-254 of `run`: the calls to `save_highscore` performed in
a loop iteration, as the list of saved values.  When the while loop
exits via `break` (a game-over transition) the code runs
`save_highscore(high_score)` exactly once, unconditionally; an
iteration that continues the loop performs no save. -/
def savesOnGameOver : TickResult → List Int
  | TickResult.cont _ => []
  | TickResult.gameOver s => [s.highScore]

/-- Lines 185-188 of `run`: handling of a direction key `nd` pressed
while the current direction is `direction` (guarded by `not paused`);
the request is dropped when it is the exact component-wise opposite of
the current direction. -/
def handle_direction_key (paused : Bool) (direction nd : Point) : Point :=
  if paused then direction
  else if nd.y = -direction.y ∧ nd.x = -direction.x then direction
  else nd

/-- Model of `new_game` from snake.py: fresh body of `START_LENGTH` cells headed
at the grid centre and extending leftwards, its set index, a freshly
placed food, direction right, score 0. -/
def new_game (h w : Int) (choice : Nat) (draws : List Point) :
    List Point × Finset Point × Point × Point × Int :=
  let start : Point := ⟨Int.fdiv h 2, Int.fdiv w 2⟩
  let body := (List.range START_LENGTH).map fun i =>
    Point.mk start.y (start.x - (i : Int))
  let snake_set := body.toFinset
  let direction : Point := ⟨0, 1⟩
  let score : Int := 0
  let food := place_food h w snake_set choice draws
  (body, snake_set, food, direction, score)

/-- Lines 270-274 of `run`: the restart transition from the game-over
screen — reassign the five `new_game` results and clear the pause
flag, leaving `wrap_walls` and `high_score` untouched. -/
def restart (h w : Int) (choice : Nat) (draws : List Point)
    (s : GameState) : GameState :=
  let r := new_game h w choice draws
  { s with body := r.1, snakeSet := r.2.1, food := r.2.2.1,
           direction := r.2.2.2.1, score := r.2.2.2.2, paused := false }

/-- Whether a `TickResult` is the game-over outcome. -/
def TickResult.isGameOver : TickResult → Bool
  | TickResult.cont _ => false
  | TickResult.gameOver _ => true

/-- A reachable running state on a 12 × 24 grid: a length-4 snake bent
into a 2 × 2 square about to move onto its own tail cell `(2, 1)`.
(Reachable: a length-3 snake that has eaten once has length 4 and can
coil into this shape.) -/
def tailFollowState : GameState :=
  { body := [⟨1, 1⟩, ⟨1, 2⟩, ⟨2, 2⟩, ⟨2, 1⟩],
    snakeSet := ([⟨1, 1⟩, ⟨1, 2⟩, ⟨2, 2⟩, ⟨2, 1⟩] : List Point).toFinset,
    food := ⟨8, 8⟩, direction := ⟨1, 0⟩, score := 1,
    paused := false, wrapWalls := false, highScore := 1 }

/-- A running state on a 12 × 24 grid whose next step is a fatal wall
collision (head `(1, 5)` moving up, as in the spec scenario), in a game
where the high score never changed: the in-memory high score still
equals the value loaded at startup from a stored `high_score` of 5. -/
def unchangedHighScoreState : GameState :=
  { body := [⟨1, 5⟩, ⟨1, 4⟩, ⟨1, 3⟩],
    snakeSet := ([⟨1, 5⟩, ⟨1, 4⟩, ⟨1, 3⟩] : List Point).toFinset,
    food := ⟨8, 8⟩, direction := ⟨-1, 0⟩, score := 0,
    paused := false, wrapWalls := false,
    highScore := load_highscore (ReadResult.value 5) }

/-- A running state on a 12 × 24 grid whose next step is a fatal wall
collision: head `(6, 22)` moving right into the right border. -/
def wallCollisionState : GameState :=
  { body := [⟨6, 22⟩, ⟨6, 21⟩, ⟨6, 20⟩],
    snakeSet := ([⟨6, 22⟩, ⟨6, 21⟩, ⟨6, 20⟩] : List Point).toFinset,
    food := ⟨8, 8⟩, direction := ⟨0, 1⟩, score := 0,
    paused := false, wrapWalls := false, highScore := 0 }

/- ------------------------------------------------------------------ -/
/- Theorems -/
/- ------------------------------------------------------------------ -/

/-- C7: `calc_tick(score) = max(TICK_MIN, TICK_START - score *
TICK_DECAY_PER_POINT)` is non-increasing in score and bounded below by
`TICK_MIN` (in particular for every score ≥ 0). -/
theorem calc_tick_antitone_and_bounded (s1 s2 : Int) (hle : s1 ≤ s2) :
    calc_tick s2 ≤ calc_tick s1 ∧ TICK_MIN ≤ calc_tick s1 := by
  constructor
  · apply max_le_max le_rfl
    apply sub_le_sub_left
    apply mul_le_mul_of_nonneg_right
    · exact_mod_cast hle
    · norm_num [TICK_DECAY_PER_POINT]
  · exact le_max_left _ _

/-- Witness for C7 at scores 2 ≤ 5. -/
theorem calc_tick_antitone_and_bounded_witness :
    calc_tick 5 ≤ calc_tick 2 ∧ TICK_MIN ≤ calc_tick 2 :=
  calc_tick_antitone_and_bounded 2 5 (by decide)

/-- C8: `wrap_point p h w` computes
`(1 + (y-1) mod (h-2), 1 + (x-1) mod (w-2))`, always lies in the
interior `[1, h-2] × [1, w-2]` when `h, w ≥ 3`, is the identity on
interior points, and maps `(0, 5)` with bounds `20 × 40` to `(18, 5)`
(the opposite interior edge). -/
theorem wrap_point_spec (p : Point) (h w : Int) (hh : 3 ≤ h) (hw : 3 ≤ w) :
    wrap_point p h w = ⟨1 + ((p.y - 1) % (h - 2)), 1 + ((p.x - 1) % (w - 2))⟩
    ∧ (1 ≤ (wrap_point p h w).y ∧ (wrap_point p h w).y ≤ h - 2
        ∧ 1 ≤ (wrap_point p h w).x ∧ (wrap_point p h w).x ≤ w - 2)
    ∧ (1 ≤ p.y → p.y ≤ h - 2 → 1 ≤ p.x → p.x ≤ w - 2 → wrap_point p h w = p)
    ∧ wrap_point ⟨0, 5⟩ 20 40 = ⟨18, 5⟩ := by
  have hh2 : (0 : Int) < h - 2 := by omega
  have hw2 : (0 : Int) < w - 2 := by omega
  refine ⟨rfl, ⟨?_, ?_, ?_, ?_⟩, ?_, by decide⟩
  · have := Int.emod_nonneg (p.y - 1) (ne_of_gt hh2)
    simp only [wrap_point]
    omega
  · have := Int.emod_lt_of_pos (p.y - 1) hh2
    simp only [wrap_point]
    omega
  · have := Int.emod_nonneg (p.x - 1) (ne_of_gt hw2)
    simp only [wrap_point]
    omega
  · have := Int.emod_lt_of_pos (p.x - 1) hw2
    simp only [wrap_point]
    omega
  · intro h1 h2 h3 h4
    have hy : (p.y - 1) % (h - 2) = p.y - 1 := Int.emod_eq_of_lt (by omega) (by omega)
    have hx : (p.x - 1) % (w - 2) = p.x - 1 := Int.emod_eq_of_lt (by omega) (by omega)
    simp only [wrap_point, hy, hx]
    cases p
    simp only [Point.mk.injEq]
    omega

/-- Witness for C8 at `p = (5, 7)`, bounds `12 × 24`. -/
theorem wrap_point_spec_witness :
    wrap_point ⟨5, 7⟩ 12 24
        = ⟨1 + ((5 - 1) % (12 - 2)), 1 + ((7 - 1) % (24 - 2))⟩
    ∧ (1 ≤ (wrap_point ⟨5, 7⟩ 12 24).y ∧ (wrap_point ⟨5, 7⟩ 12 24).y ≤ 12 - 2
        ∧ 1 ≤ (wrap_point ⟨5, 7⟩ 12 24).x ∧ (wrap_point ⟨5, 7⟩ 12 24).x ≤ 24 - 2)
    ∧ (1 ≤ (5 : Int) → (5 : Int) ≤ 12 - 2 → 1 ≤ (7 : Int) → (7 : Int) ≤ 24 - 2
        → wrap_point ⟨5, 7⟩ 12 24 = ⟨5, 7⟩)
    ∧ wrap_point ⟨0, 5⟩ 20 40 = ⟨18, 5⟩ :=
  wrap_point_spec ⟨5, 7⟩ 12 24 (by decide) (by decide)

/-- C9: `load_highscore` always returns a non-negative integer, and a
well-formed file holding a negative `high_score` value loads as `0`
rather than the stored value. -/
theorem load_highscore_nonneg (r : ReadResult) (hs : Int) (hneg : hs < 0) :
    0 ≤ load_highscore r ∧ load_highscore (ReadResult.value hs) = 0 := by
  constructor
  · cases r <;> simp [load_highscore]
  · simp only [load_highscore]
    omega

/-- Witness for C9 at a stored value of `-7`. -/
theorem load_highscore_nonneg_witness :
    0 ≤ load_highscore ReadResult.failure
    ∧ load_highscore (ReadResult.value (-7)) = 0 :=
  load_highscore_nonneg ReadResult.failure (-7) (by decide)

/-- Membership in the scan list of interior cells is exactly membership
in the interior rectangle `[1, h-2] × [1, w-2]`. -/
lemma mem_interiorCells (h w : Int) (p : Point) :
    p ∈ interiorCells h w
      ↔ 1 ≤ p.y ∧ p.y ≤ h - 2 ∧ 1 ≤ p.x ∧ p.x ≤ w - 2 := by
  cases p with
  | mk y x =>
    simp only [interiorCells, List.mem_flatMap, List.mem_map, List.mem_range]
    constructor
    · rintro ⟨i, hi, j, hj, hp⟩
      rw [Point.mk.injEq] at hp
      obtain ⟨hp1, hp2⟩ := hp
      refine ⟨?_, ?_, ?_, ?_⟩ <;> omega
    · rintro ⟨h1, h2, h3, h4⟩
      refine ⟨(y - 1).toNat, by omega, (x - 1).toNat, by omega, ?_⟩
      rw [Point.mk.injEq]
      constructor <;> omega

/-- Pigeonhole: when the occupied set is strictly smaller than the
playable area, some interior cell is unoccupied. -/
lemma exists_empty_interior_cell (h w : Int) (snake : Finset Point)
    (hh : 2 ≤ h) (hw : 2 ≤ w)
    (hcard : (snake.card : Int) < (h - 2) * (w - 2)) :
    ∃ p ∈ interiorCells h w, p ∉ snake := by
  by_contra hcon
  push_neg at hcon
  have hinj : ((Finset.Icc (1 : Int) (h - 2)) ×ˢ (Finset.Icc (1 : Int) (w - 2))).card
      ≤ snake.card := by
    apply Finset.card_le_card_of_injOn (fun q => Point.mk q.1 q.2)
    · rintro ⟨a, b⟩ hq
      rw [Finset.mem_product, Finset.mem_Icc, Finset.mem_Icc] at hq
      apply hcon
      rw [mem_interiorCells]
      exact ⟨hq.1.1, hq.1.2, hq.2.1, hq.2.2⟩
    · rintro ⟨a, b⟩ _ ⟨c, d⟩ _ hab
      rw [Point.mk.injEq] at hab
      exact Prod.ext hab.1 hab.2
  rw [Finset.card_product, Int.card_Icc, Int.card_Icc] at hinj
  have hinj2 : (((h - 2 + 1 - 1).toNat * (w - 2 + 1 - 1).toNat : Nat) : Int)
      ≤ (snake.card : Int) := by exact_mod_cast hinj
  push_cast at hinj2
  rw [Int.toNat_of_nonneg (by omega), Int.toNat_of_nonneg (by omega)] at hinj2
  have hsimp : (h - 2 + 1 - 1) * (w - 2 + 1 - 1) = (h - 2) * (w - 2) := by ring
  rw [hsimp] at hinj2
  linarith

/-- C5: for bounds at least 12 × 24 and an occupied set inside the
interior covering at most `playable - 1` cells, `place_food` returns a
point of the interior `[1, h-2] × [1, w-2]` that is not occupied —
whichever of the dense-scan, random-try or fallback-scan paths runs. -/
theorem place_food_interior_not_occupied (h w : Int) (snake : Finset Point)
    (choice : Nat) (draws : List Point)
    (hh : 12 ≤ h) (hw : 24 ≤ w)
    (hsn : ∀ p ∈ snake, 1 ≤ p.y ∧ p.y ≤ h - 2 ∧ 1 ≤ p.x ∧ p.x ≤ w - 2)
    (hcard : (snake.card : Int) ≤ (h - 2) * (w - 2) - 1)
    (hdraws : ∀ p ∈ draws, 1 ≤ p.y ∧ p.y ≤ h - 2 ∧ 1 ≤ p.x ∧ p.x ≤ w - 2) :
    (1 ≤ (place_food h w snake choice draws).y
      ∧ (place_food h w snake choice draws).y ≤ h - 2
      ∧ 1 ≤ (place_food h w snake choice draws).x
      ∧ (place_food h w snake choice draws).x ≤ w - 2)
    ∧ place_food h w snake choice draws ∉ snake := by
  have hlt : (snake.card : Int) < (h - 2) * (w - 2) := by linarith
  obtain ⟨p0, hp0mem, hp0not⟩ :=
    exists_empty_interior_cell h w snake (by omega) (by omega) hlt
  simp only [place_food]
  rw [if_neg (by push_neg; linarith)]
  split
  · -- dense branch: uniform choice among the scanned empty cells
    have hne : (interiorCells h w).filter (fun p => decide (p ∉ snake)) ≠ [] := by
      intro hnil
      have hmem0 : p0 ∈ (interiorCells h w).filter (fun p => decide (p ∉ snake)) := by
        rw [List.mem_filter]
        exact ⟨hp0mem, by simpa using hp0not⟩
      rw [hnil] at hmem0
      cases hmem0
    have hlen : 0 < ((interiorCells h w).filter (fun p => decide (p ∉ snake))).length :=
      List.length_pos.mpr hne
    have hidx : choice % ((interiorCells h w).filter (fun p => decide (p ∉ snake))).length
        < ((interiorCells h w).filter (fun p => decide (p ∉ snake))).length :=
      Nat.mod_lt _ hlen
    have hmem : ((interiorCells h w).filter (fun p => decide (p ∉ snake))).getD
        (choice % ((interiorCells h w).filter (fun p => decide (p ∉ snake))).length)
        ⟨1, 1⟩ ∈ (interiorCells h w).filter (fun p => decide (p ∉ snake)) := by
      rw [List.getD_eq_getElem _ _ hidx]
      exact List.getElem_mem hidx
    rw [List.mem_filter] at hmem
    obtain ⟨hmem1, hmem2⟩ := hmem
    rw [mem_interiorCells] at hmem1
    exact ⟨hmem1, by simpa using hmem2⟩
  · -- sparse branch: random tries, then the fallback scan
    split
    · -- one of the 200 random interior samples was free
      rename_i p hfind
      have hp := List.find?_some hfind
      have hpd : p ∈ draws := List.take_subset _ _ (List.mem_of_find?_eq_some hfind)
      exact ⟨hdraws p hpd, by simpa using hp⟩
    · -- all samples failed: the exhaustive scan runs
      split
      · rename_i p hfind
        have hp := List.find?_some hfind
        have hpm := List.mem_of_find?_eq_some hfind
        rw [mem_interiorCells] at hpm
        exact ⟨hpm, by simpa using hp⟩
      · rename_i hnone2
        exfalso
        rw [List.find?_eq_none] at hnone2
        have hcontra := hnone2 p0 hp0mem
        simp only [decide_eq_true_eq, not_not] at hcontra
        exact hp0not hcontra

/-- Witness for C5: the fresh length-3 snake on a 12 × 24 grid, with an
empty stream of random draws (so the fallback scan runs). -/
theorem place_food_interior_not_occupied_witness :
    (1 ≤ (place_food 12 24 (([⟨6, 12⟩, ⟨6, 11⟩, ⟨6, 10⟩] : List Point).toFinset) 0 []).y
      ∧ (place_food 12 24 (([⟨6, 12⟩, ⟨6, 11⟩, ⟨6, 10⟩] : List Point).toFinset) 0 []).y ≤ 12 - 2
      ∧ 1 ≤ (place_food 12 24 (([⟨6, 12⟩, ⟨6, 11⟩, ⟨6, 10⟩] : List Point).toFinset) 0 []).x
      ∧ (place_food 12 24 (([⟨6, 12⟩, ⟨6, 11⟩, ⟨6, 10⟩] : List Point).toFinset) 0 []).x ≤ 24 - 2)
    ∧ place_food 12 24 (([⟨6, 12⟩, ⟨6, 11⟩, ⟨6, 10⟩] : List Point).toFinset) 0 []
        ∉ (([⟨6, 12⟩, ⟨6, 11⟩, ⟨6, 10⟩] : List Point).toFinset) :=
  place_food_interior_not_occupied 12 24
    (([⟨6, 12⟩, ⟨6, 11⟩, ⟨6, 10⟩] : List Point).toFinset) 0 []
    (by decide) (by decide) (by decide) (by decide) (by decide)

/-- C1 (code bug): at the end of a tick in which the new head equals
the outgoing tail and no food is eaten, `snake_set` no longer equals
the set of points of the body deque — `snake_set.add(new_head)` was a
no-op (the tail was already present) and `snake_set.remove(removed)`
then deleted the cell that is still the body's head, so the head cell
is absent from the index. -/
theorem snake_set_desync_on_tail_follow :
    (step 12 24 0 [] tailFollowState).isGameOver = false
    ∧ (step 12 24 0 [] tailFollowState).state.snakeSet
        ≠ ((step 12 24 0 [] tailFollowState).state.body).toFinset
    ∧ (step 12 24 0 [] tailFollowState).state.body.headI
        ∉ (step 12 24 0 [] tailFollowState).state.snakeSet := by
  decide

/-- C2 (counterexample to the claim as stated): a game-over transition
in a game where the high score never changed — it still equals the
value loaded at startup — nevertheless performs a save: the code calls
`save_highscore(high_score)` unconditionally after the loop breaks. -/
theorem save_on_unchanged_highscore :
    unchangedHighScoreState.highScore = load_highscore (ReadResult.value 5)
    ∧ unchangedHighScoreState.score < unchangedHighScoreState.highScore
    ∧ (step 12 24 0 [] unchangedHighScoreState).isGameOver = true
    ∧ savesOnGameOver (step 12 24 0 [] unchangedHighScoreState)
        = [load_highscore (ReadResult.value 5)] := by
  decide

/-- A step either breaks with the pre-tick state (game over) or
continues the loop. -/
lemma step_gameOver_or_cont (h w : Int) (choice : Nat)
    (draws : List Point) (s : GameState) :
    step h w choice draws s = TickResult.gameOver s
    ∨ (step h w choice draws s).isGameOver = false := by
  simp only [step, stepFrom]
  split
  · split
    · exact Or.inl rfl
    · split <;> exact Or.inr rfl
  · split
    · exact Or.inl rfl
    · split
      · exact Or.inl rfl
      · split <;> exact Or.inr rfl

/-- C2 (amended): on every game-over transition the in-memory high
score is persisted via `save_highscore` exactly once — unconditionally,
whether or not the value changed during the game. -/
theorem save_once_on_gameover (h w : Int) (choice : Nat)
    (draws : List Point) (s : GameState)
    (hgo : (step h w choice draws s).isGameOver = true) :
    savesOnGameOver (step h w choice draws s) = [s.highScore] := by
  rcases step_gameOver_or_cont h w choice draws s with hcase | hcase
  · rw [hcase]
    rfl
  · rw [hgo] at hcase
    cases hcase

/-- Witness for the amended C2: the wall-collision state game-overs and
saves its high score exactly once. -/
theorem save_once_on_gameover_witness :
    savesOnGameOver (step 12 24 0 [] unchangedHighScoreState)
      = [unchangedHighScoreState.highScore] :=
  save_once_on_gameover 12 24 0 [] unchangedHighScoreState (by decide)

/-- A movement step whose (projected) new head equals the current tail
cell passes the self-collision check and continues the loop. -/
lemma stepFrom_tail_not_gameOver (h w : Int) (choice : Nat)
    (draws : List Point) (s : GameState) (nh : Point)
    (hnh : nh = s.body.getLastD default) :
    (stepFrom h w choice draws s nh).isGameOver = false := by
  simp only [stepFrom]
  rw [if_neg (fun hc => hc.2 hnh)]
  split <;> rfl

/-- C3: a tick whose new head (after wrap projection when wrap mode is
on) equals the pre-tick tail point — which occurs nowhere else in the
body, and lies inside the walls when wrap mode is off — never
transitions to game over: tail-following is always legal. -/
theorem tail_follow_no_gameover (h w : Int) (choice : Nat)
    (draws : List Point) (s : GameState) (t : Point)
    (ht : t = s.body.getLastD default)
    (hnh : (if s.wrapWalls then wrap_point (add s.body.headI s.direction) h w
            else add s.body.headI s.direction) = t)
    (hbound : s.wrapWalls = false →
      0 < t.y ∧ t.y < h - 1 ∧ 0 < t.x ∧ t.x < w - 1)
    (honce : s.body.count t = 1) :
    (step h w choice draws s).isGameOver = false := by
  cases hwrap : s.wrapWalls with
  | true =>
    have hnh2 : wrap_point (add s.body.headI s.direction) h w = t := by
      simpa [hwrap] using hnh
    simp only [step]
    rw [if_pos hwrap]
    exact stepFrom_tail_not_gameOver h w choice draws s _ (hnh2.trans ht)
  | false =>
    have hnh2 : add s.body.headI s.direction = t := by
      simpa [hwrap] using hnh
    obtain ⟨h1, h2, h3, h4⟩ := hbound hwrap
    simp only [step]
    rw [if_neg (by simp [hwrap])]
    rw [if_neg (by rw [hnh2]; omega)]
    exact stepFrom_tail_not_gameOver h w choice draws s _ (hnh2.trans ht)

/-- Witness for C3: the length-4 coiled snake of `tailFollowState`
moving onto its own tail continues without game over. -/
theorem tail_follow_no_gameover_witness :
    (step 12 24 0 [] tailFollowState).isGameOver = false :=
  tail_follow_no_gameover 12 24 0 [] tailFollowState ⟨2, 1⟩
    (by decide) (by decide) (by decide) (by decide)

/-- C4: with wrap mode off, a tick whose new head lies on or outside
the border (row ≤ 0, row ≥ h-1, col ≤ 0 or col ≥ w-1) transitions to
game over with the state — body, index, food and score — exactly as it
was before the tick (the loop breaks before any mutation). -/
theorem wall_collision_gameover (h w : Int) (choice : Nat)
    (draws : List Point) (s : GameState)
    (hwrap : s.wrapWalls = false)
    (hwall : (add s.body.headI s.direction).y ≤ 0
      ∨ (add s.body.headI s.direction).y ≥ h - 1
      ∨ (add s.body.headI s.direction).x ≤ 0
      ∨ (add s.body.headI s.direction).x ≥ w - 1) :
    step h w choice draws s = TickResult.gameOver s := by
  simp only [step, hwrap, Bool.false_eq_true, if_false]
  rw [if_pos hwall]

/-- Witness for C4: the snake headed into the right border on a
12 × 24 grid game-overs with its state unchanged. -/
theorem wall_collision_gameover_witness :
    step 12 24 0 [] wallCollisionState = TickResult.gameOver wallCollisionState :=
  wall_collision_gameover 12 24 0 [] wallCollisionState (by decide) (by decide)

/-- C6: for each of the four directions, a direction-change request
equal to the exact component-wise opposite of the current direction
leaves the direction unchanged, and any other direction key, when not
paused, sets the direction to the requested value. -/
theorem reverse_direction_rejected (d nd : Point)
    (hd : d ∈ DIRS) (hnd : nd ∈ DIRS) :
    handle_direction_key false d ⟨-d.y, -d.x⟩ = d
    ∧ (nd ≠ ⟨-d.y, -d.x⟩ → handle_direction_key false d nd = nd) := by
  fin_cases hd <;> fin_cases hnd <;> decide

/-- Witness for C6: current direction up, requested direction left. -/
theorem reverse_direction_rejected_witness :
    handle_direction_key false ⟨-1, 0⟩ ⟨-(-1 : Int), -(0 : Int)⟩ = ⟨-1, 0⟩
    ∧ ((⟨0, -1⟩ : Point) ≠ ⟨-(-1 : Int), -(0 : Int)⟩ →
        handle_direction_key false ⟨-1, 0⟩ ⟨0, -1⟩ = ⟨0, -1⟩) :=
  reverse_direction_rejected ⟨-1, 0⟩ ⟨0, -1⟩ (by decide) (by decide)

/-- C10: the restart transition resets the body to a fresh length-3
snake centred at `(h // 2, w // 2)` extending leftwards, score to 0,
direction to right and pause to off, while leaving the wrap flag and
the in-memory high score untouched (the high score is not reloaded). -/
theorem restart_resets (h w : Int) (choice : Nat) (draws : List Point)
    (s : GameState) :
    (restart h w choice draws s).body
      = [⟨Int.fdiv h 2, Int.fdiv w 2⟩, ⟨Int.fdiv h 2, Int.fdiv w 2 - 1⟩,
         ⟨Int.fdiv h 2, Int.fdiv w 2 - 2⟩]
    ∧ (restart h w choice draws s).body.length = START_LENGTH
    ∧ (restart h w choice draws s).score = 0
    ∧ (restart h w choice draws s).direction = ⟨0, 1⟩
    ∧ (restart h w choice draws s).paused = false
    ∧ (restart h w choice draws s).wrapWalls = s.wrapWalls
    ∧ (restart h w choice draws s).highScore = s.highScore := by
  have hbody : (restart h w choice draws s).body
      = [⟨Int.fdiv h 2, Int.fdiv w 2⟩, ⟨Int.fdiv h 2, Int.fdiv w 2 - 1⟩,
         ⟨Int.fdiv h 2, Int.fdiv w 2 - 2⟩] := by
    simp only [restart, new_game, START_LENGTH]
    norm_num [List.range_succ]
  refine ⟨hbody, ?_, rfl, rfl, rfl, rfl, rfl⟩
  rw [hbody]
  rfl

end SnakeGame
